import Mathlib

set_option linter.unusedVariables false
set_option linter.unnecessarySimpa false

/-!
Verification of the provider-registry and consensus-orchestration core of the
zen-mcp-server repository, as a shallow embedding in Lean 4.

Conventions used throughout:
* Python strings are embedded as Lean `String` (or `List Char` where structural
  reasoning over occurrences is needed); Python `str.strip` is `String.trim`,
  `str.lower` is `String.toLower`.
* Python `None`-or-value results are embedded as `Option`; a raised exception is
  embedded as `Except.error` carrying the exception message.
* Python dictionaries keyed by strings are embedded as functions into `Option`
  built by successive (overwriting) updates, matching `d[k] = v` semantics.
* Apostrophe quoting inside source message strings (for example the quotes
  around the stance token in the invalid-stance message) is elided; no claim
  depends on the quote characters themselves.
* Opaque payloads that no claim mentions (usage metadata dictionaries) are not
  modelled.
-/

namespace ZenMCP

/-- Provider kinds, from `providers/base.py` usage across the sources
(`ProviderType.GOOGLE`, `OPENAI`, `XAI`, `DIAL`, `CUSTOM`, `OPENROUTER`,
`VERTEX_AI`). -/
inductive ProviderType where
  | google
  | openai
  | xai
  | dial
  | custom
  | openrouter
  | vertex_ai
deriving DecidableEq, Repr

/-- Modelled from the spec: `ToolModelCategory` (defined in `tools/models.py`,
not among the sources) has the three categories used by every provider
`get_preferred_model` implementation and by the registry: extended reasoning,
fast response, and balanced (the default). -/
inductive ToolModelCategory where
  | extended_reasoning
  | fast_response
  | balanced
deriving DecidableEq, Repr

/-- Priority order of providers, from `ModelProviderRegistry.PROVIDER_PRIORITY_ORDER`
in `providers/registry.py`. -/
def PROVIDER_PRIORITY_ORDER : List ProviderType :=
  [ProviderType.google, ProviderType.openai, ProviderType.xai,
   ProviderType.dial, ProviderType.custom, ProviderType.openrouter]

/-- Modelled from the spec: `DEFAULT_CONSENSUS_MAX_INSTANCES_PER_COMBINATION`
lives in `config.py`, which is not among the sources; the spec (and the
docstrings of `tools/consensus.py`) fix it at 2 ("Maximum 2 instances per
model+stance combination"). -/
def DEFAULT_CONSENSUS_MAX_INSTANCES_PER_COMBINATION : Nat := 2

/-- Characters stripped by Python `str.strip`, dropped from the front of a
character list. -/
def dropLeadingWhitespace (xs : List Char) : List Char :=
  xs.dropWhile Char.isWhitespace

/-- Model of Python `str.strip` on the underlying character list: whitespace
dropped from both ends. -/
def trimChars (xs : List Char) : List Char :=
  ((dropLeadingWhitespace xs).reverse.dropWhile Char.isWhitespace).reverse

/-- Model of Python `str.strip` on strings. -/
def strTrim (s : String) : String := String.mk (trimChars s.data)

/-- Model of Python `str.lower` on strings (ASCII case folding; all stance
tokens are ASCII). -/
def strToLower (s : String) : String := String.mk (s.data.map Char.toLower)

/-- Split a character list at the first occurrence of `c`: `none` when `c` does
not occur, otherwise the parts strictly before and strictly after the first
occurrence (later occurrences stay in the right part, as with Python
`split(c, 1)`). -/
def splitAtChar (c : Char) : List Char → Option (List Char × List Char)
  | [] => none
  | x :: rest =>
    if x = c then some ([], rest)
    else
      match splitAtChar c rest with
      | none => none
      | some (l, r) => some (x :: l, r)

/-- Modelled from the spec: `parse_model_option` lives in `server.py`, which is
not among the sources. Per the spec grammar it splits a model entry on an
optional single `:` separator, returning the trimmed left (model) part and, when
the separator is present, the trimmed right (option) part. -/
def parse_model_option (entry : String) : String × Option String :=
  match splitAtChar ':' entry.data with
  | none => (String.mk (trimChars entry.data), none)
  | some (l, r) => (String.mk (trimChars l), some (String.mk (trimChars r)))

/-- Stance synonyms accepted as supportive, from
`ConsensusTool._parse_model_and_stance` in `tools/consensus.py`. -/
def supportive_stances : List String := ["for", "support", "favor"]

/-- Stance synonyms accepted as critical, from
`ConsensusTool._parse_model_and_stance` in `tools/consensus.py`. -/
def critical_stances : List String := ["against", "oppose", "critical"]

/-- Error message for an invalid stance token, from
`ConsensusTool._parse_model_and_stance` in `tools/consensus.py` (the sorted
union of the synonym sets is inlined; apostrophe quoting elided). -/
def invalid_stance_message (stance : String) : String :=
  "invalid stance " ++ stance ++
    " (must be one of: against, critical, favor, for, oppose, support, or omitted for neutral)"

/-- Embedding of `ConsensusTool._parse_model_and_stance` from
`tools/consensus.py`. The Python function returns `(model_name, stance)` on
success and `(None, reason)` on failure; that is `(Option String) × String`
here, with `(some m, stance)` for success and `(none, reason)` for failure. -/
def parse_model_and_stance (model_entry : String) : Option String × String :=
  let parsed := parse_model_option model_entry
  let model_name := parsed.1
  if model_name = "" then
    (none, "model name cannot be empty")
  else
    match parsed.2 with
    | none => (some model_name, "neutral")
    | some stance0 =>
      if stance0 = "" then
        (some model_name, "neutral")
      else
        let stance := strToLower stance0
        if supportive_stances.contains stance then
          (some model_name, "for")
        else if critical_stances.contains stance then
          (some model_name, "against")
        else if stance = "neutral" then
          (some model_name, "neutral")
        else
          (none, invalid_stance_message stance)

/-- Recursive worker for `validate_model_combinations`: walks the entries with
the running `(model, stance) -> count` map (a function, updated pointwise like
the Python dict `combination_counts`). -/
def validate_model_combinations_go
    (entries : List String) (counts : String × String → Nat) :
    List (String × String) × List String :=
  match entries with
  | [] => ([], [])
  | entry :: rest =>
    match parse_model_and_stance entry with
    | (none, reason) =>
      let r := validate_model_combinations_go rest counts
      (r.1, (entry ++ " (" ++ reason ++ ")") :: r.2)
    | (some model_name, stance) =>
      let key := (model_name, stance)
      if counts key ≥ DEFAULT_CONSENSUS_MAX_INSTANCES_PER_COMBINATION then
        let r := validate_model_combinations_go rest counts
        (r.1,
          (model_name ++ ":" ++ stance ++ " (max " ++
            toString DEFAULT_CONSENSUS_MAX_INSTANCES_PER_COMBINATION ++
            " instances)") :: r.2)
      else
        let r := validate_model_combinations_go rest
          (fun k => if k = key then counts k + 1 else counts k)
        (key :: r.1, r.2)

/-- Embedding of `ConsensusTool._validate_model_combinations` from
`tools/consensus.py`: returns `(valid_combinations, skipped_entries)`. -/
def validate_model_combinations (model_entries : List String) :
    List (String × String) × List String :=
  validate_model_combinations_go model_entries (fun _ => 0)

/-- Worker for the occurrence count: while `skip` is positive the position is
inside a previously matched occurrence and is passed over; at `skip = 0` a
match of `pat` counts one occurrence and causes the remaining `pat.length - 1`
matched positions to be skipped, realizing the non-overlapping, left-to-right
scan of Python `str.count`. -/
def countOccAux (pat : List Char) : List Char → Nat → Nat
  | [], _ => 0
  | _ :: rest, Nat.succ k => countOccAux pat rest k
  | x :: rest, 0 =>
    if pat.isPrefixOf (x :: rest) then 1 + countOccAux pat rest (pat.length - 1)
    else countOccAux pat rest 0

/-- Count of non-overlapping, left-to-right occurrences of `pat` in `xs`,
modelling Python `str.count` on the underlying character lists for a non-empty
pattern (the embedding only ever uses the non-empty placeholder pattern). -/
def countOcc (pat xs : List Char) : Nat := countOccAux pat xs 0

/-- Worker for the occurrence replacement, with the same skip discipline as
`countOccAux`: characters inside a matched occurrence are dropped, a fresh
match at `skip = 0` emits `rep` instead. -/
def replaceOccAux (pat rep : List Char) : List Char → Nat → List Char
  | [], _ => []
  | _ :: rest, Nat.succ k => replaceOccAux pat rep rest k
  | x :: rest, 0 =>
    if pat.isPrefixOf (x :: rest) then rep ++ replaceOccAux pat rep rest (pat.length - 1)
    else x :: replaceOccAux pat rep rest 0

/-- Replacement of every non-overlapping, left-to-right occurrence of `pat` by
`rep` in `xs`, modelling Python `str.replace` on the underlying character lists
for a non-empty pattern. -/
def replaceOcc (pat rep xs : List Char) : List Char := replaceOccAux pat rep xs 0

/-- Decidable equality of exception-or-value results, so that concrete runs of
the embedded fallible functions can be checked by `decide`. -/
instance {ε α : Type} [DecidableEq ε] [DecidableEq α] : DecidableEq (Except ε α) :=
  fun a b =>
    match a, b with
    | .ok x, .ok y =>
      if h : x = y then .isTrue (by rw [h]) else .isFalse (by simp [h])
    | .ok _, .error _ => .isFalse (by simp)
    | .error _, .ok _ => .isFalse (by simp)
    | .error x, .error y =>
      if h : x = y then .isTrue (by rw [h]) else .isFalse (by simp [h])

/-- Placeholder token that the base system prompt must contain exactly once,
from `ConsensusTool._get_stance_enhanced_prompt` in `tools/consensus.py`. -/
def stancePlaceholder : String := "{stance_prompt}"

/-- Stance block for the supportive stance, from the `stance_prompts` table in
`ConsensusTool._get_stance_enhanced_prompt`. The long prose body is abridged to
its heading and opening line: no claim depends on the body text, only on which
block is selected and substituted. -/
def for_stance_prompt : String :=
  "SUPPORTIVE PERSPECTIVE WITH INTEGRITY\n\nYou are tasked with advocating FOR this proposal, but with CRITICAL GUARDRAILS"

/-- Stance block for the critical stance, from the `stance_prompts` table in
`ConsensusTool._get_stance_enhanced_prompt` (body abridged as above). -/
def against_stance_prompt : String :=
  "CRITICAL PERSPECTIVE WITH RESPONSIBILITY\n\nYou are tasked with critiquing this proposal, but with ESSENTIAL BOUNDARIES"

/-- Stance block for the neutral stance, from the `stance_prompts` table in
`ConsensusTool._get_stance_enhanced_prompt` (body abridged as above). -/
def neutral_stance_prompt : String :=
  "BALANCED PERSPECTIVE\n\nProvide objective analysis considering both positive and negative aspects"

/-- Lookup in the `stance_prompts` dict with the neutral block as default,
modelling `stance_prompts.get(stance, stance_prompts[\x22neutral\x22])`. -/
def stance_prompts (stance : String) : String :=
  if stance = "for" then for_stance_prompt
  else if stance = "against" then against_stance_prompt
  else if stance = "neutral" then neutral_stance_prompt
  else neutral_stance_prompt

/-- Embedding of `ConsensusTool._get_stance_enhanced_prompt` from
`tools/consensus.py`, generalized over the base system prompt (the source reads
it from `self.get_system_prompt()`). The `ValueError` raised on a violated
placeholder count is `Except.error`; apostrophe quoting inside the message is
elided. -/
def get_stance_enhanced_prompt (base_prompt : String) (stance : String) :
    Except String String :=
  let stance_prompt := stance_prompts stance
  let cnt := countOcc stancePlaceholder.data base_prompt.data
  if cnt ≠ 1 then
    .error ("System prompt must contain exactly one stance_prompt placeholder, found " ++
      toString cnt)
  else
    .ok (String.mk (replaceOcc stancePlaceholder.data stance_prompt.data base_prompt.data))

/-- One per-model response entry, from the dictionaries built by
`ConsensusTool._get_single_response` in `tools/consensus.py` (`status` is the
literal string `"success"` or `"error"`; success entries have a `verdict` and no
`error` key, error entries the reverse; the opaque usage metadata is not
modelled). -/
structure ResponseEntry where
  model : String
  stance : String
  status : String
  verdict : Option String := none
  error : Option String := none
deriving DecidableEq, Repr

/-- One attempted model+stance combination together with the outcome of the
`provider.generate_content` call made inside the `try` block of
`ConsensusTool._get_single_response`: `Except.ok` carries the response content,
`Except.error` the message of the exception raised by the call (any failure
inside the `try` block, transport errors included). -/
structure ModelCall where
  model : String
  stance : String
  outcome : Except String String
deriving Repr

/-- Embedding of `ConsensusTool._get_single_response` from `tools/consensus.py`:
the `try/except` around `provider.generate_content` converts an exception into a
`status="error"` entry carrying `str(e)`, and a normal return into a
`status="success"` entry carrying the content. Total: no exception escapes. -/
def get_single_response (c : ModelCall) : ResponseEntry :=
  match c.outcome with
  | .ok content =>
    { model := c.model, stance := c.stance, status := "success",
      verdict := some content, error := none }
  | .error e =>
    { model := c.model, stance := c.stance, status := "error",
      verdict := none, error := some e }

/-- Embedding of `ConsensusTool._get_consensus_responses` from
`tools/consensus.py`: a sequential loop appending one entry per combination (the
cooperative `asyncio.sleep` yields have no observable effect on the result; the
outer `try/except` is unreachable because `get_single_response` is total). -/
def get_consensus_responses (calls : List ModelCall) : List ResponseEntry :=
  calls.map get_single_response

/-- Guidance text returned when no model succeeded, from
`ConsensusTool._get_synthesis_guidance` in `tools/consensus.py`. -/
def retry_guidance : String :=
  "No models provided successful responses. Please retry with different models or check the error messages for guidance on resolving the issues."

/-- Guidance text returned when exactly one model succeeded, from
`ConsensusTool._get_synthesis_guidance` in `tools/consensus.py`. -/
def single_model_guidance : String :=
  "Only one model provided a successful response. Synthesize based on the available perspective and indicate areas where additional expert input would be valuable due to the limited consensus data."

/-- Guidance text for two or more successes, from
`ConsensusTool._get_synthesis_guidance` in `tools/consensus.py`. -/
def multi_model_guidance : String :=
  "Claude, synthesize these perspectives by first identifying the key points of **agreement** and **disagreement** between the models. Then provide your final, consolidated recommendation, explaining how you weighed the different opinions and why your proposed solution is the most balanced approach. Explicitly address the most critical risks raised by each model and provide actionable next steps for implementation."

/-- Partial-consensus note appended when some models failed, from
`ConsensusTool._get_synthesis_guidance` in `tools/consensus.py`
(an f-string over `len(failed_responses)`). -/
def partial_consensus_note (failedCount : Nat) : String :=
  " Note: " ++ toString failedCount ++ " model(s) failed to respond - consider this partial consensus and indicate where additional expert input would strengthen the analysis."

/-- Embedding of `ConsensusTool._get_synthesis_guidance` from
`tools/consensus.py`. The source also tallies stances of the successful
responses into a local `stance_counts` dict that it never reads; that dead
computation is omitted. -/
def get_synthesis_guidance
    (successful_responses failed_responses : List ResponseEntry) : String :=
  if successful_responses.isEmpty then retry_guidance
  else if successful_responses.length = 1 then single_model_guidance
  else if failed_responses.isEmpty then multi_model_guidance
  else multi_model_guidance ++ partial_consensus_note failed_responses.length

/-- Display form of a response entry in `models_used` / `models_errored`:
`model:stance` unless neutral, from `ConsensusTool._format_consensus_output`. -/
def model_display (r : ResponseEntry) : String :=
  if r.stance ≠ "neutral" then r.model ++ ":" ++ r.stance else r.model

/-- One entry of the `responses` array of the aggregate output, from the
`clean_responses` construction in `ConsensusTool._format_consensus_output`
(success entries keep a `verdict`, error entries an `error`; the opaque
metadata dict is not modelled). -/
structure CleanResponse where
  model : String
  stance : String
  status : String
  verdict : Option String := none
  error : Option String := none
deriving DecidableEq, Repr

/-- Conversion of a response entry into its clean output form, from the loop in
`ConsensusTool._format_consensus_output` (`r.get("verdict", "")` and
`r.get("error", "Unknown error")` defaults preserved). -/
def clean_response_of (r : ResponseEntry) : CleanResponse :=
  if r.status = "success" then
    { model := r.model, stance := r.stance, status := r.status,
      verdict := some (r.verdict.getD ""), error := none }
  else
    { model := r.model, stance := r.stance, status := r.status,
      verdict := none, error := some (r.error.getD "Unknown error") }

/-- The JSON object produced by the consensus tool, from the `output_data` dict
of `ConsensusTool._format_consensus_output` and the `error_output` dicts of
`ConsensusTool.execute`. Keys absent from a given dict are `none`. -/
structure ConsensusOutput where
  status : String
  error : Option String := none
  models_used : Option (List String) := none
  models_skipped : List String
  models_errored : Option (List String) := none
  responses : Option (List CleanResponse) := none
  next_steps : String
deriving DecidableEq, Repr

/-- Embedding of `ConsensusTool._format_consensus_output` from
`tools/consensus.py`. -/
def format_consensus_output
    (responses : List ResponseEntry) (skipped_entries : List String) :
    ConsensusOutput :=
  let successful_responses := responses.filter (fun r => r.status = "success")
  let failed_responses := responses.filter (fun r => r.status = "error")
  { status := if successful_responses.isEmpty then "consensus_failed" else "consensus_success",
    error := none,
    models_used := some (successful_responses.map model_display),
    models_skipped := skipped_entries,
    models_errored := some (failed_responses.map model_display),
    responses := some (responses.map clean_response_of),
    next_steps := get_synthesis_guidance successful_responses failed_responses }

/-- Error message of the total-failure output, from `ConsensusTool.execute` in
`tools/consensus.py`. -/
def all_failed_error_message : String :=
  "All model calls failed - no successful responses received"

/-- Next-steps text of the total-failure output, from `ConsensusTool.execute`
in `tools/consensus.py`. -/
def all_failed_next_steps : String :=
  "Please retry with different models or check the error messages for guidance on resolving the issues."

/-- Embedding of the aggregation tail of `ConsensusTool.execute` in
`tools/consensus.py` (from the minimum-success enforcement onward): given the
collected per-model responses and the skipped entries, either the dedicated
all-calls-failed error object or the formatted consensus output. -/
def execute_aggregate
    (responses : List ResponseEntry) (skipped_entries : List String) :
    ConsensusOutput :=
  let successful_responses := responses.filter (fun r => r.status = "success")
  if successful_responses.isEmpty then
    { status := "consensus_failed",
      error := some all_failed_error_message,
      models_used := none,
      models_skipped := skipped_entries,
      models_errored :=
        some ((responses.filter (fun r => r.status = "error")).map model_display),
      responses := none,
      next_steps := all_failed_next_steps }
  else
    format_consensus_output responses skipped_entries

/-- Embedding of `VertexAIModelProvider.list_models` from
`providers/vertex_ai.py`, generalized over the provider's model table and
restriction policy: `supported` lists the `SUPPORTED_MODELS` entries in order as
`(name, is_alias)` pairs (alias entries are plain strings in the source and are
skipped), `allowed` is `restriction_service.is_allowed` for this provider. When
`respect_restrictions` is true the provider itself filters by the policy;
otherwise no filtering happens here. -/
def vertex_list_models (supported : List (String × Bool))
    (allowed : String → Bool) (respect_restrictions : Bool) : List String :=
  match supported with
  | [] => []
  | (name, is_alias) :: rest =>
    if is_alias then vertex_list_models rest allowed respect_restrictions
    else if respect_restrictions && !(allowed name) then
      vertex_list_models rest allowed respect_restrictions
    else name :: vertex_list_models rest allowed respect_restrictions

/-- One registered, constructible provider as seen by
`ModelProviderRegistry.get_available_models`: its kind and its model table
(`get_provider` returning `None` for a kind is modelled by the kind being
absent from the registry list). -/
structure RegisteredProvider where
  ptype : ProviderType
  supported : List (String × Bool)
deriving DecidableEq, Repr

/-- Inner loop of `ModelProviderRegistry.get_available_models` over one
provider's `available` list: `models[model_name] = provider_type` is an
overwriting update of the name-to-provider map. The guard reproduces the
source condition
`restriction_service and not respect_restrictions and not is_allowed(...)`
verbatim, where `restriction_service` is present exactly when
`respect_restrictions` is true — so the registry-level filter can never fire. -/
def registry_add_models (policy : ProviderType → String → Bool) (respect : Bool)
    (pt : ProviderType) (available : List String)
    (models : String → Option ProviderType) : String → Option ProviderType :=
  match available with
  | [] => models
  | model_name :: rest =>
    let restriction_service_present := respect
    if restriction_service_present && !respect && !(policy pt model_name) then
      registry_add_models policy respect pt rest models
    else
      registry_add_models policy respect pt rest
        (fun name => if name = model_name then some pt else models name)

/-- Worker of `get_available_models`: processes registered providers in order,
each contributing `provider.list_models(respect_restrictions=...)`. -/
def get_available_models_go (policy : ProviderType → String → Bool)
    (respect : Bool) (providers : List RegisteredProvider)
    (models : String → Option ProviderType) : String → Option ProviderType :=
  match providers with
  | [] => models
  | p :: rest =>
    get_available_models_go policy respect rest
      (registry_add_models policy respect p.ptype
        (vertex_list_models p.supported (policy p.ptype) respect) models)

/-- Embedding of `ModelProviderRegistry.get_available_models` from
`providers/registry.py`: the resulting model-name to provider-kind dict, as a
function into `Option ProviderType`. -/
def get_available_models (providers : List RegisteredProvider)
    (policy : ProviderType → String → Bool) (respect_restrictions : Bool) :
    String → Option ProviderType :=
  get_available_models_go policy respect_restrictions providers (fun _ => none)

/-- Lexicographic comparison of character lists by code point, the order used
by Python `sorted` on strings. -/
def charListLe : List Char → List Char → Bool
  | [], _ => true
  | _ :: _, [] => false
  | a :: as, b :: bs =>
    if a.toNat < b.toNat then true
    else if b.toNat < a.toNat then false
    else charListLe as bs

/-- Code-point lexicographic order on strings, the order used by Python
`sorted`. -/
def strLe (a b : String) : Bool := charListLe a.data b.data

/-- Insertion step of the sort modelling Python `sorted`. -/
def insertSorted (x : String) : List String → List String
  | [] => [x]
  | y :: ys => if strLe x y then x :: y :: ys else y :: insertSorted x ys

/-- Model of Python `sorted` on a list of strings (insertion sort; since the
code-point order is total, the sorted output is the unique sorted permutation,
the same list Python produces). -/
def sortStrings (l : List String) : List String := l.foldr insertSorted []

/-- Model of Python `sorted(l)[0]`, used by the registry on non-empty lists
(`""` stands for the out-of-domain empty case, never reached there). -/
def sorted_first (l : List String) : String := (sortStrings l).headD ""

/-- One constructible provider instance as the registry fallback logic sees it:
its model table (as in `vertex_list_models`) and its
`get_preferred_model(category, allowed_models)` heuristic. -/
structure ProviderImpl where
  supported : List (String × Bool)
  get_preferred_model : ToolModelCategory → List String → Option String

/-- Process-wide registry and restriction state:
`provider kind ↦ constructed instance or none` (absorbing both unregistered
kinds and failed construction in `ModelProviderRegistry.get_provider`) and the
restriction service `is_allowed` predicate. -/
structure RegistryState where
  provider : ProviderType → Option ProviderImpl
  policy : ProviderType → String → Bool

/-- Embedding of `ModelProviderRegistry._get_allowed_models_for_provider` from
`providers/registry.py`: the provider lists its supported models without
restrictions (`list_models(respect_restrictions=False)`), then the registry
filters by `restriction_service.is_allowed`. -/
def get_allowed_models_for_provider
    (st : RegistryState) (p : ProviderImpl) (pt : ProviderType) : List String :=
  (vertex_list_models p.supported (st.policy pt) false).filter
    (fun model_name => st.policy pt model_name)

/-- Default model name of the ultimate fallback, from
`ModelProviderRegistry.get_preferred_fallback_model` in `providers/registry.py`. -/
def ULTIMATE_FALLBACK_MODEL : String := "gemini-2.5-flash"

/-- Worker of `get_preferred_fallback_model`: walks the priority order carrying
the mutable `first_available_model` local (initialized to Python `None`;
since the source only ever tests it for truthiness, `""` faithfully stands for
both `None` and an empty-string name, which are equally falsy). -/
def get_preferred_fallback_model_go (st : RegistryState)
    (category : ToolModelCategory) :
    List ProviderType → String → String
  | [], first_available =>
    if first_available ≠ "" then first_available else ULTIMATE_FALLBACK_MODEL
  | pt :: rest, first_available =>
    match st.provider pt with
    | none => get_preferred_fallback_model_go st category rest first_available
    | some p =>
      let allowed_models := get_allowed_models_for_provider st p pt
      if allowed_models.isEmpty then
        get_preferred_fallback_model_go st category rest first_available
      else
        let first_available1 :=
          if first_available = "" then sorted_first allowed_models else first_available
        match p.get_preferred_model category allowed_models with
        | some preferred =>
          if preferred ≠ "" then preferred
          else get_preferred_fallback_model_go st category rest first_available1
        | none => get_preferred_fallback_model_go st category rest first_available1

/-- Embedding of `ModelProviderRegistry.get_preferred_fallback_model` from
`providers/registry.py` (a missing `tool_category` defaults to balanced). -/
def get_preferred_fallback_model (st : RegistryState)
    (tool_category : Option ToolModelCategory) : String :=
  let effective_category := tool_category.getD ToolModelCategory.balanced
  get_preferred_fallback_model_go st effective_category PROVIDER_PRIORITY_ORDER ""

/-- Helper `find_first` of `OpenAIModelProvider.get_preferred_model` in
`providers/openai_provider.py`: first model of the preference list contained in
`allowed_models`. -/
def find_first (preferences allowed_models : List String) : Option String :=
  preferences.find? (fun model => allowed_models.contains model)

/-- Embedding of `OpenAIModelProvider.get_preferred_model` from
`providers/openai_provider.py`: `None` on an empty allowed list, otherwise the
first preference-list hit, falling back to `allowed_models[0]` (the Python
truthiness test `if preferred` coincides with the `Option` match because every
preference-list entry is a non-empty literal). -/
def openai_get_preferred_model (category : ToolModelCategory)
    (allowed_models : List String) : Option String :=
  match allowed_models with
  | [] => none
  | first :: _ =>
    match category with
    | .extended_reasoning =>
      some ((find_first ["o3", "o3-pro", "gpt-5"] allowed_models).getD first)
    | .fast_response =>
      some ((find_first ["gpt-5", "gpt-5-mini", "o4-mini", "o3-mini"] allowed_models).getD first)
    | .balanced =>
      some ((find_first ["gpt-5", "gpt-5-mini", "o4-mini", "o3-mini"] allowed_models).getD first)

/-- Embedding of `XAIModelProvider.get_preferred_model` from
`providers/xai.py` (the source if/elif chains written out verbatim). -/
def xai_get_preferred_model (category : ToolModelCategory)
    (allowed_models : List String) : Option String :=
  match allowed_models with
  | [] => none
  | first :: _ =>
    match category with
    | .extended_reasoning =>
      if allowed_models.contains "grok-4" then some "grok-4"
      else if allowed_models.contains "grok-3" then some "grok-3"
      else some first
    | .fast_response =>
      if allowed_models.contains "grok-3-fast" then some "grok-3-fast"
      else if allowed_models.contains "grok-4" then some "grok-4"
      else some first
    | .balanced =>
      if allowed_models.contains "grok-4" then some "grok-4"
      else if allowed_models.contains "grok-3" then some "grok-3"
      else if allowed_models.contains "grok-3-fast" then some "grok-3-fast"
      else some first

/-- Reference (spec-side) definition for C3: the model+stance pairs of the
entries that parse successfully, in input order. -/
def parsed_ok_entries (entries : List String) : List (String × String) :=
  entries.filterMap (fun e =>
    match parse_model_and_stance e with
    | (some m, st) => some (m, st)
    | (none, _) => none)

/-- Reference (spec-side) worker for C3: keep an element exactly when fewer
than 2 equal elements occurred before it (`prev` is the full history of
already-seen elements). -/
def keep_first_two_aux (prev : List (String × String)) :
    List (String × String) → List (String × String)
  | [] => []
  | p :: rest =>
    if prev.count p < 2 then p :: keep_first_two_aux (prev ++ [p]) rest
    else keep_first_two_aux (prev ++ [p]) rest

/-- Reference (spec-side) definition for C3, following the claim wording: of
every group of identical pairs, exactly the first 2 occurrences are kept, in
input order. -/
def keep_first_two (l : List (String × String)) : List (String × String) :=
  keep_first_two_aux [] l

/-- Reference (spec-side) definition for C4, following the claim wording:
filter an available-models map by the restriction policy (each entry kept iff
its provider/model pair is allowed). -/
def restricted_filter (policy : ProviderType → String → Bool)
    (m : String → Option ProviderType) : String → Option ProviderType :=
  fun name =>
    match m name with
    | some pt => if policy pt name then some pt else none
    | none => none

/-- Declarative form of the first tier of the fallback search (for C6): the
first provider in priority order that has allowed models and answers the
preference heuristic with a non-empty name. -/
def first_preference_go (st : RegistryState) (category : ToolModelCategory) :
    List ProviderType → Option String
  | [] => none
  | pt :: rest =>
    match st.provider pt with
    | none => first_preference_go st category rest
    | some p =>
      let allowed := get_allowed_models_for_provider st p pt
      if allowed.isEmpty then first_preference_go st category rest
      else
        match p.get_preferred_model category allowed with
        | some s => if s ≠ "" then some s else first_preference_go st category rest
        | none => first_preference_go st category rest

/-- Declarative first-tier preference over the full priority order (for C6). -/
def first_preference (st : RegistryState) (category : ToolModelCategory) :
    Option String :=
  first_preference_go st category PROVIDER_PRIORITY_ORDER

/-- Declarative form of the second tier of the fallback search as the source
implements it (for C6): the sorted-first allowed model of the first provider
in priority order contributing a non-empty name (`""` when none does). -/
def first_available_priority_go (st : RegistryState) : List ProviderType → String
  | [] => ""
  | pt :: rest =>
    match st.provider pt with
    | none => first_available_priority_go st rest
    | some p =>
      let allowed := get_allowed_models_for_provider st p pt
      if allowed.isEmpty then first_available_priority_go st rest
      else if sorted_first allowed ≠ "" then sorted_first allowed
      else first_available_priority_go st rest

/-- Declarative second-tier fallback over the full priority order (for C6). -/
def first_available_priority (st : RegistryState) : String :=
  first_available_priority_go st PROVIDER_PRIORITY_ORDER

/-- Reference (claim-side) definition for C6, following the claim wording
"the first available model in sorted order across providers": the sorted-first
model of the union of all providers' allowed models. -/
def first_available_across_providers (st : RegistryState) : Option String :=
  match sortStrings
      (PROVIDER_PRIORITY_ORDER.foldr
        (fun pt acc =>
          (match st.provider pt with
           | some p => get_allowed_models_for_provider st p pt
           | none => []) ++ acc)
        []) with
  | [] => none
  | m :: _ => some m

/-- Static ranked preference lists of `OpenAIModelProvider.get_preferred_model`
per category, from `providers/openai_provider.py` (for C7). -/
def openai_preference_table (category : ToolModelCategory) : List String :=
  match category with
  | .extended_reasoning => ["o3", "o3-pro", "gpt-5"]
  | .fast_response => ["gpt-5", "gpt-5-mini", "o4-mini", "o3-mini"]
  | .balanced => ["gpt-5", "gpt-5-mini", "o4-mini", "o3-mini"]

/-- Static ranked preference lists of `XAIModelProvider.get_preferred_model`
per category, read off the if/elif chains of `providers/xai.py` (for C7). -/
def xai_preference_table (category : ToolModelCategory) : List String :=
  match category with
  | .extended_reasoning => ["grok-4", "grok-3"]
  | .fast_response => ["grok-3-fast", "grok-4"]
  | .balanced => ["grok-4", "grok-3", "grok-3-fast"]

/-! ## Theorems -/

/-- C5: for every exception raised by a single `provider.generate_content` call
during consensus execution, the orchestrator appends an entry with status
`"error"` whose error field carries the exception message, and continues
processing all remaining model+stance combinations (one entry per combination,
in order); no per-call exception is ever re-raised to the batch level (the
embedded functions are total). -/
theorem get_consensus_responses_error_containment (calls : List ModelCall) :
    get_consensus_responses calls = calls.map get_single_response ∧
    (get_consensus_responses calls).length = calls.length ∧
    (∀ c : ModelCall, ∀ e : String, c.outcome = .error e →
      (get_single_response c).status = "error" ∧
      (get_single_response c).error = some e ∧
      (get_single_response c).model = c.model ∧
      (get_single_response c).stance = c.stance) ∧
    (∀ c : ModelCall, ∀ v : String, c.outcome = .ok v →
      (get_single_response c).status = "success" ∧
      (get_single_response c).verdict = some v) := by
  refine ⟨rfl, by simp [get_consensus_responses], ?_, ?_⟩
  · intro c e he
    simp [get_single_response, he]
  · intro c v hv
    simp [get_single_response, hv]

/-- Witness for C5 at a concrete failing call. -/
theorem get_consensus_responses_error_containment_witness :
    (⟨"o3", "for", Except.error "Timeout"⟩ : ModelCall).outcome = .error "Timeout" ∧
    (get_single_response ⟨"o3", "for", Except.error "Timeout"⟩).status = "error" ∧
    (get_single_response ⟨"o3", "for", Except.error "Timeout"⟩).error = some "Timeout" := by
  have h := get_consensus_responses_error_containment [⟨"o3", "for", Except.error "Timeout"⟩]
  exact ⟨rfl, (h.2.2.1 _ "Timeout" rfl).1, (h.2.2.1 _ "Timeout" rfl).2.1⟩

/-- C9: the synthesis-guidance generator is a pure function of the successful
and failed response lists with exactly three cases: zero successes yields the
retry guidance; exactly one success yields the single-perspective guidance;
two or more successes yield the consolidated-recommendation guidance, with the
partial-consensus note appended if and only if the failed list is non-empty
(the three guidance texts are pairwise distinct and the note is non-empty, so
the cases and the appending are observable). -/
theorem get_synthesis_guidance_cases (successful failed : List ResponseEntry) :
    (successful = [] → get_synthesis_guidance successful failed = retry_guidance) ∧
    (successful.length = 1 →
      get_synthesis_guidance successful failed = single_model_guidance) ∧
    (2 ≤ successful.length → failed = [] →
      get_synthesis_guidance successful failed = multi_model_guidance) ∧
    (2 ≤ successful.length → failed ≠ [] →
      get_synthesis_guidance successful failed =
        multi_model_guidance ++ partial_consensus_note failed.length) ∧
    (∀ n : Nat, partial_consensus_note n ≠ "") ∧
    (retry_guidance ≠ single_model_guidance ∧
      retry_guidance ≠ multi_model_guidance ∧
      single_model_guidance ≠ multi_model_guidance) := by
  refine ⟨?_, ?_, ?_, ?_, ?_, by refine ⟨?_, ?_, ?_⟩ <;> decide⟩
  · intro h
    simp [get_synthesis_guidance, h]
  · intro h
    have hne : ¬ successful.isEmpty := by
      cases successful with
      | nil => simp at h
      | cons a l => simp
    simp [get_synthesis_guidance, hne, h]
  · intro h2 hf
    have hne : ¬ successful.isEmpty := by
      cases successful with
      | nil => simp at h2
      | cons a l => simp
    have h1 : successful.length ≠ 1 := by omega
    simp [get_synthesis_guidance, hne, h1, hf]
  · intro h2 hf
    have hne : ¬ successful.isEmpty := by
      cases successful with
      | nil => simp at h2
      | cons a l => simp
    have h1 : successful.length ≠ 1 := by omega
    have hfne : ¬ failed.isEmpty := by
      cases failed with
      | nil => simp at hf
      | cons a l => simp
    simp [get_synthesis_guidance, hne, h1, hfne]
  · intro n h
    have hd := congrArg String.data h
    simp [partial_consensus_note] at hd

/-- Witness for C9 at concrete response lists (two successes, one failure). -/
theorem get_synthesis_guidance_cases_witness :
    (2 ≤ ([⟨"o3", "for", "success", some "v1", none⟩,
           ⟨"pro", "against", "success", some "v2", none⟩] : List ResponseEntry).length) ∧
    ([⟨"grok", "neutral", "error", none, some "Timeout"⟩] : List ResponseEntry) ≠ [] ∧
    get_synthesis_guidance
        [⟨"o3", "for", "success", some "v1", none⟩,
         ⟨"pro", "against", "success", some "v2", none⟩]
        [⟨"grok", "neutral", "error", none, some "Timeout"⟩] =
      multi_model_guidance ++ partial_consensus_note 1 :=
  ⟨by decide, by decide,
    (get_synthesis_guidance_cases _ _).2.2.2.1 (by decide) (by decide)⟩

/-- C1: for every consensus execution whose per-model response list contains
zero entries with status `"success"`, the tool returns the JSON object with
status `"consensus_failed"` and the explicit all-model-calls-failed error
message; with at least one success (even if other entries are errors) it
returns status `"consensus_success"` with the partial results included: the
`responses` array carries one entry per collected response, preserving model,
stance and status. -/
theorem execute_aggregate_status_spec
    (responses : List ResponseEntry) (skipped : List String) :
    ((∀ r ∈ responses, r.status ≠ "success") →
      (execute_aggregate responses skipped).status = "consensus_failed" ∧
      (execute_aggregate responses skipped).error = some all_failed_error_message ∧
      all_failed_error_message =
        "All model calls failed - no successful responses received") ∧
    ((∃ r ∈ responses, r.status = "success") →
      (execute_aggregate responses skipped).status = "consensus_success" ∧
      (execute_aggregate responses skipped).error = none ∧
      (execute_aggregate responses skipped).responses =
        some (responses.map clean_response_of) ∧
      (responses.map clean_response_of).length = responses.length) ∧
    (∀ r : ResponseEntry,
      (clean_response_of r).model = r.model ∧
      (clean_response_of r).stance = r.stance ∧
      (clean_response_of r).status = r.status) := by
  refine ⟨?_, ?_, ?_⟩
  · intro h
    have hf : responses.filter (fun r => r.status = "success") = [] := by
      rw [List.filter_eq_nil_iff]
      intro a ha
      simpa using h a ha
    refine ⟨?_, ?_, by decide⟩ <;> simp [execute_aggregate, hf]
  · rintro ⟨r, hr, hs⟩
    have hmem : r ∈ responses.filter (fun r => r.status = "success") :=
      List.mem_filter.mpr ⟨hr, by simpa using hs⟩
    have hf : ¬ (responses.filter (fun r => r.status = "success")).isEmpty := by
      cases hfe : responses.filter (fun r => r.status = "success") with
      | nil => rw [hfe] at hmem; cases hmem
      | cons a l => simp [hfe]
    simp [execute_aggregate, format_consensus_output, hf]
  · intro r
    by_cases h : r.status = "success" <;> simp [clean_response_of, h]

/-- Witness for C1 at two concrete runs: an all-errors run and a mixed run. -/
theorem execute_aggregate_status_spec_witness :
    (∀ r ∈ ([⟨"o3", "for", "error", none, some "boom"⟩] : List ResponseEntry),
      r.status ≠ "success") ∧
    (execute_aggregate [⟨"o3", "for", "error", none, some "boom"⟩] []).status =
      "consensus_failed" ∧
    (∃ r ∈ ([⟨"o3", "for", "error", none, some "boom"⟩,
             ⟨"pro", "against", "success", some "v", none⟩] : List ResponseEntry),
      r.status = "success") ∧
    (execute_aggregate
        [⟨"o3", "for", "error", none, some "boom"⟩,
         ⟨"pro", "against", "success", some "v", none⟩] []).status =
      "consensus_success" :=
  ⟨by decide,
    ((execute_aggregate_status_spec [⟨"o3", "for", "error", none, some "boom"⟩] []).1
      (by decide)).1,
    by decide,
    ((execute_aggregate_status_spec
        [⟨"o3", "for", "error", none, some "boom"⟩,
         ⟨"pro", "against", "success", some "v", none⟩] []).2.1
      (by decide)).1⟩

/-- Helper: the last element of a non-empty list exists. -/
theorem getLast?_cons_ne_none {A : Type} (a : A) (l : List A) :
    (a :: l).getLast? ≠ none := by
  induction l generalizing a with
  | nil => simp
  | cons b l ih => rw [List.getLast?_cons_cons]; exact ih b

/-- Helper: the inner dict-filling loop of `get_available_models` writes each
listed name (last write wins); its dead registry-level filter never fires. -/
theorem registry_add_models_spec (policy : ProviderType → String → Bool)
    (respect : Bool) (pt : ProviderType) :
    ∀ (available : List String) (acc : String → Option ProviderType) (name : String),
      registry_add_models policy respect pt available acc name =
        if available.contains name then some pt else acc name := by
  intro available
  induction available with
  | nil => intro acc name; simp [registry_add_models]
  | cons model_name rest ih =>
    intro acc name
    simp only [registry_add_models]
    rw [if_neg (by simp)]
    rw [ih]
    by_cases h1 : name ∈ rest
    · simp [h1]
    · by_cases h2 : name = model_name
      · simp [h1, h2]
      · simp [h1, h2]

/-- Helper: the registry model map sends a name to the kind of the LAST
registered provider listing it (Python dict overwrite), or to the accumulator
when no provider lists it. -/
theorem get_available_models_go_spec (policy : ProviderType → String → Bool)
    (respect : Bool) :
    ∀ (providers : List RegisteredProvider) (acc : String → Option ProviderType)
      (name : String),
      get_available_models_go policy respect providers acc name =
        (match (providers.filter (fun p =>
            (vertex_list_models p.supported (policy p.ptype) respect).contains name)).getLast? with
         | some p => some p.ptype
         | none => acc name) := by
  intro providers
  induction providers with
  | nil => intro acc name; rfl
  | cons p rest ih =>
    intro acc name
    simp only [get_available_models_go, List.filter_cons]
    rw [ih]
    by_cases hp : (vertex_list_models p.supported (policy p.ptype) respect).contains name
    · rw [if_pos (by simpa using hp)]
      cases hl : rest.filter (fun q =>
          (vertex_list_models q.supported (policy q.ptype) respect).contains name) with
      | nil =>
        simp only [hl, List.getLast?_singleton, List.getLast?_nil]
        rw [registry_add_models_spec, if_pos hp]
      | cons a l =>
        simp only [hl, List.getLast?_cons_cons]
        cases hg2 : (a :: l).getLast? with
        | none => exact absurd hg2 (getLast?_cons_ne_none a l)
        | some q => rfl
    · rw [if_neg (by simpa using hp)]
      cases hl : rest.filter (fun q =>
          (vertex_list_models q.supported (policy q.ptype) respect).contains name) with
      | nil =>
        simp only [hl, List.getLast?_nil]
        rw [registry_add_models_spec, if_neg hp]
      | cons a l =>
        cases hg2 : (a :: l).getLast? with
        | none => exact absurd hg2 (getLast?_cons_ne_none a l)
        | some q => rfl

/-- Helper: a provider's restricted listing holds a name exactly when the
unrestricted listing holds it and the policy allows it. -/
theorem vertex_list_models_mem (supported : List (String × Bool))
    (allowed : String → Bool) (name : String) :
    name ∈ vertex_list_models supported allowed true ↔
      (name ∈ vertex_list_models supported allowed false ∧ allowed name = true) := by
  induction supported with
  | nil => simp [vertex_list_models]
  | cons entry rest ih =>
    obtain ⟨n, is_alias⟩ := entry
    cases is_alias with
    | true => simpa [vertex_list_models] using ih
    | false =>
      cases haln : allowed n with
      | true =>
        by_cases hname : name = n
        · subst hname
          simp [vertex_list_models, haln, ih]
        · simp [vertex_list_models, haln, hname, ih]
      | false =>
        by_cases hname : name = n
        · subst hname
          simp [vertex_list_models, haln, ih]
        · simp [vertex_list_models, haln, hname, ih]

/-- Helper: Boolean form of `vertex_list_models_mem`. -/
theorem vertex_list_models_contains (supported : List (String × Bool))
    (allowed : String → Bool) (name : String) :
    (vertex_list_models supported allowed true).contains name =
      ((vertex_list_models supported allowed false).contains name && allowed name) := by
  simp only [List.contains]
  by_cases h1 : name ∈ vertex_list_models supported allowed true
  · obtain ⟨h2, h3⟩ := (vertex_list_models_mem supported allowed name).mp h1
    rw [List.elem_iff.mpr h1, List.elem_iff.mpr h2, h3]
    rfl
  · have h1' : (vertex_list_models supported allowed true).elem name = false := by
      cases hc : (vertex_list_models supported allowed true).elem name with
      | false => rfl
      | true => exact absurd (List.elem_iff.mp hc) h1
    rw [h1']
    by_cases h2 : name ∈ vertex_list_models supported allowed false
    · have h2' : (vertex_list_models supported allowed false).elem name = true :=
        List.elem_iff.mpr h2
      have h3 : allowed name = false := by
        cases h : allowed name with
        | false => rfl
        | true =>
          exact absurd ((vertex_list_models_mem supported allowed name).mpr ⟨h2, h⟩) h1
      rw [h2', h3]
      rfl
    · have h2' : (vertex_list_models supported allowed false).elem name = false := by
        cases hc : (vertex_list_models supported allowed false).elem name with
        | false => rfl
        | true => exact absurd (List.elem_iff.mp hc) h2
      rw [h2']
      rfl

/-- C4 counterexample: the claim quantifies over every registry state, but when
two providers list the same model name and the restriction policy allows it
only for the earlier-priority one, `get_available_models(True)` keeps the
model (listed by the allowed provider) while filtering
`get_available_models(False)` drops it (the dict overwrite recorded the later,
disallowed provider): the two result maps differ at that name. -/
theorem get_available_models_counterexample :
    (let providers0 : List RegisteredProvider :=
      [⟨ProviderType.google, [("m", false)]⟩, ⟨ProviderType.openai, [("m", false)]⟩]
     let policy0 : ProviderType → String → Bool := fun pt _ =>
      match pt with
      | ProviderType.google => true
      | _ => false
     get_available_models providers0 policy0 true "m" = some ProviderType.google ∧
     restricted_filter policy0 (get_available_models providers0 policy0 false) "m" =
       none) := by
  refine ⟨by decide, by decide⟩

/-- C4 (amended): for every registry state in which no model name is listed by
two different registered providers, the model map of
`get_available_models(respect_restrictions=True)` equals the result of
filtering `get_available_models(respect_restrictions=False)` by the same
restriction policy — restriction filtering is applied exactly once (inside the
provider's `list_models` when `True`, nowhere when `False`; the registry-level
filter condition is never satisfiable). Without the single-lister proviso the
maps can differ (see the counterexample). -/
theorem get_available_models_filter_once (providers : List RegisteredProvider)
    (policy : ProviderType → String → Bool) (name : String)
    (huniq : (providers.filter (fun p =>
        (vertex_list_models p.supported (policy p.ptype) false).contains name)).length ≤ 1) :
    get_available_models providers policy true name =
      restricted_filter policy (get_available_models providers policy false) name := by
  have hsplit : providers.filter (fun p =>
      (vertex_list_models p.supported (policy p.ptype) true).contains name) =
      (providers.filter (fun p =>
        (vertex_list_models p.supported (policy p.ptype) false).contains name)).filter
        (fun p => policy p.ptype name) := by
    rw [List.filter_filter]
    apply List.filter_congr
    intro p _
    rw [vertex_list_models_contains]
    rw [Bool.and_comm]
  simp only [get_available_models, restricted_filter]
  rw [get_available_models_go_spec, get_available_models_go_spec, hsplit]
  cases hlf : providers.filter (fun p =>
      (vertex_list_models p.supported (policy p.ptype) false).contains name) with
  | nil => simp
  | cons p0 tail =>
    cases tail with
    | nil =>
      simp only [List.getLast?_singleton, List.filter_cons]
      by_cases hpol : policy p0.ptype name
      · rw [if_pos (by simpa using hpol), if_pos hpol]
        simp
      · rw [if_neg (by simpa using hpol), if_neg hpol]
        simp
    | cons p1 tail2 =>
      rw [hlf] at huniq
      simp at huniq

/-- Witness for C4 at a concrete single-provider registry. -/
theorem get_available_models_filter_once_witness :
    (([⟨ProviderType.google, [("m", false)]⟩] : List RegisteredProvider).filter
        (fun p => (vertex_list_models p.supported ((fun _ _ => true) p.ptype) false).contains "m")).length ≤ 1 ∧
    get_available_models [⟨ProviderType.google, [("m", false)]⟩] (fun _ _ => true) true "m" =
      restricted_filter (fun _ _ => true)
        (get_available_models [⟨ProviderType.google, [("m", false)]⟩] (fun _ _ => true) false) "m" :=
  ⟨by decide,
    get_available_models_filter_once [⟨ProviderType.google, [("m", false)]⟩]
      (fun _ _ => true) "m" (by decide)⟩

/-- Helper: a preference reported by the declarative first-tier scan is
non-empty (the Python truthiness check skips empty strings). -/
theorem first_preference_go_ne_empty (st : RegistryState)
    (category : ToolModelCategory) :
    ∀ (pts : List ProviderType) (s : String),
      first_preference_go st category pts = some s → s ≠ "" := by
  intro pts
  induction pts with
  | nil => intro s h; cases h
  | cons pt rest ih =>
    intro s h
    simp only [first_preference_go] at h
    cases hprov : st.provider pt with
    | none =>
      rw [hprov] at h
      exact ih s h
    | some p =>
      rw [hprov] at h
      dsimp only at h
      by_cases hemp : (get_allowed_models_for_provider st p pt).isEmpty
      · rw [if_pos hemp] at h
        exact ih s h
      · rw [if_neg hemp] at h
        cases hpref : p.get_preferred_model category
            (get_allowed_models_for_provider st p pt) with
        | none =>
          rw [hpref] at h
          exact ih s h
        | some s0 =>
          rw [hpref] at h
          dsimp only at h
          by_cases hs0 : s0 = ""
          · rw [if_neg (by simp [hs0])] at h
            exact ih s h
          · rw [if_pos hs0] at h
            cases h
            exact hs0

/-- Helper: when the declarative first-tier scan finds a preference, the
imperative fallback walk returns it, whatever `first_available` it carries. -/
theorem go_of_first_preference_some (st : RegistryState)
    (category : ToolModelCategory) :
    ∀ (pts : List ProviderType) (fa s : String),
      first_preference_go st category pts = some s →
      get_preferred_fallback_model_go st category pts fa = s := by
  intro pts
  induction pts with
  | nil => intro fa s h; cases h
  | cons pt rest ih =>
    intro fa s h
    simp only [first_preference_go] at h
    simp only [get_preferred_fallback_model_go]
    cases hprov : st.provider pt with
    | none =>
      rw [hprov] at h
      exact ih fa s h
    | some p =>
      rw [hprov] at h
      dsimp only at h ⊢
      by_cases hemp : (get_allowed_models_for_provider st p pt).isEmpty
      · rw [if_pos hemp] at h ⊢
        exact ih fa s h
      · rw [if_neg hemp] at h ⊢
        cases hpref : p.get_preferred_model category
            (get_allowed_models_for_provider st p pt) with
        | none =>
          rw [hpref] at h
          dsimp only at h ⊢
          exact ih _ s h
        | some s0 =>
          rw [hpref] at h
          dsimp only at h ⊢
          by_cases hs0 : s0 = ""
          · rw [if_neg (by simp [hs0])] at h ⊢
            exact ih _ s h
          · rw [if_pos hs0] at h ⊢
            cases h
            rfl

/-- Helper: when the declarative first-tier scan finds no preference, the
imperative fallback walk returns the carried `first_available` when non-empty,
else the declarative second tier, else the ultimate fallback. -/
theorem go_of_first_preference_none (st : RegistryState)
    (category : ToolModelCategory) :
    ∀ (pts : List ProviderType) (fa : String),
      first_preference_go st category pts = none →
      get_preferred_fallback_model_go st category pts fa =
        (if (if fa ≠ "" then fa else first_available_priority_go st pts) ≠ ""
         then (if fa ≠ "" then fa else first_available_priority_go st pts)
         else ULTIMATE_FALLBACK_MODEL) := by
  intro pts
  induction pts with
  | nil =>
    intro fa h
    by_cases hfa : fa = "" <;>
      simp [get_preferred_fallback_model_go, first_available_priority_go, hfa,
        ULTIMATE_FALLBACK_MODEL]
  | cons pt rest ih =>
    intro fa h
    simp only [first_preference_go] at h
    simp only [get_preferred_fallback_model_go, first_available_priority_go]
    cases hprov : st.provider pt with
    | none =>
      rw [hprov] at h
      exact ih fa h
    | some p =>
      rw [hprov] at h
      dsimp only at h ⊢
      by_cases hemp : (get_allowed_models_for_provider st p pt).isEmpty
      · simp only [if_pos hemp] at h ⊢
        exact ih fa h
      · simp only [if_neg hemp] at h ⊢
        have hbridge :
            (if (if fa = "" then sorted_first (get_allowed_models_for_provider st p pt)
                  else fa) ≠ ""
             then (if fa = "" then sorted_first (get_allowed_models_for_provider st p pt)
                  else fa)
             else first_available_priority_go st rest) =
            (if fa ≠ "" then fa
             else
               if sorted_first (get_allowed_models_for_provider st p pt) ≠ ""
               then sorted_first (get_allowed_models_for_provider st p pt)
               else first_available_priority_go st rest) := by
          by_cases hfa : fa = "" <;>
            by_cases hs0 :
              sorted_first (get_allowed_models_for_provider st p pt) = "" <;>
            simp [hfa, hs0]
        cases hpref : p.get_preferred_model category
            (get_allowed_models_for_provider st p pt) with
        | none =>
          rw [hpref] at h
          dsimp only at h ⊢
          rw [ih _ h, hbridge]
        | some s0 =>
          rw [hpref] at h
          dsimp only at h ⊢
          by_cases hs0e : s0 = ""
          · rw [if_neg (by simp [hs0e])] at h ⊢
            rw [ih _ h, hbridge]
          · rw [if_pos hs0e] at h
            cases h

/-- C6 counterexample: the claim describes the second fallback tier as "the
first available model in sorted order across providers", but the source only
sorts within the highest-priority provider that has any allowed models: with
google offering only "zz" and openai only "aa" (and no provider preferences)
the code returns "zz", while the sorted order across providers starts with
"aa". -/
theorem get_preferred_fallback_model_counterexample :
    (let st0 : RegistryState :=
      ⟨fun pt =>
        match pt with
        | ProviderType.google => some ⟨[("zz", false)], fun _ _ => none⟩
        | ProviderType.openai => some ⟨[("aa", false)], fun _ _ => none⟩
        | _ => none,
       fun _ _ => true⟩
     get_preferred_fallback_model st0 (some ToolModelCategory.balanced) = "zz" ∧
     first_preference st0 ToolModelCategory.balanced = none ∧
     first_available_across_providers st0 = some "aa" ∧
     ("zz" : String) ≠ "aa") := by
  refine ⟨by decide, by decide, by decide, by decide⟩

/-- C6 (amended): `get_preferred_fallback_model` always returns a non-empty
model name, for every registry state including one with zero providers: the
first non-empty provider preference in priority order, otherwise the
sorted-first allowed model of the highest-priority provider that has any
allowed models, otherwise the hardcoded `"gemini-2.5-flash"`. -/
theorem get_preferred_fallback_model_spec (st : RegistryState)
    (tool_category : Option ToolModelCategory) :
    get_preferred_fallback_model st tool_category ≠ "" ∧
    get_preferred_fallback_model st tool_category =
      (match first_preference st (tool_category.getD ToolModelCategory.balanced) with
       | some s => s
       | none =>
         if first_available_priority st ≠ "" then first_available_priority st
         else ULTIMATE_FALLBACK_MODEL) := by
  have hmain :
      get_preferred_fallback_model st tool_category =
        (match first_preference st (tool_category.getD ToolModelCategory.balanced) with
         | some s => s
         | none =>
           if first_available_priority st ≠ "" then first_available_priority st
           else ULTIMATE_FALLBACK_MODEL) := by
    have hunfold : get_preferred_fallback_model st tool_category =
        get_preferred_fallback_model_go st (tool_category.getD ToolModelCategory.balanced)
          PROVIDER_PRIORITY_ORDER "" := rfl
    rw [hunfold]
    cases hfp : first_preference st (tool_category.getD ToolModelCategory.balanced) with
    | some s =>
      rw [go_of_first_preference_some st _ PROVIDER_PRIORITY_ORDER "" s hfp]
    | none =>
      rw [go_of_first_preference_none st _ PROVIDER_PRIORITY_ORDER "" hfp]
      dsimp only
      rw [show first_available_priority_go st PROVIDER_PRIORITY_ORDER =
        first_available_priority st from rfl]
      simp
  refine ⟨?_, hmain⟩
  rw [hmain]
  cases hfp : first_preference st (tool_category.getD ToolModelCategory.balanced) with
  | none =>
    simp only
    by_cases hv : first_available_priority st = "" <;> simp [hv, ULTIMATE_FALLBACK_MODEL]
  | some s =>
    simpa using first_preference_go_ne_empty st _ PROVIDER_PRIORITY_ORDER s hfp

/-- Helper: `find_first` over an empty allowed list finds nothing. -/
theorem find_first_nil (preferences : List String) :
    find_first preferences [] = none := by
  rw [find_first, List.find?_eq_none]
  intro x _
  simp

/-- Helper: the OpenAI preference chain written with `find_first` and the
matching table. -/
theorem openai_get_preferred_model_eq (category : ToolModelCategory)
    (a : String) (rest : List String) :
    openai_get_preferred_model category (a :: rest) =
      some ((find_first (openai_preference_table category) (a :: rest)).getD a) := by
  cases category <;> rfl

/-- Helper: the X.AI if/elif chains coincide with the `find_first` scan of the
matching preference table. -/
theorem xai_get_preferred_model_eq (category : ToolModelCategory)
    (a : String) (rest : List String) :
    xai_get_preferred_model category (a :: rest) =
      some ((find_first (xai_preference_table category) (a :: rest)).getD a) := by
  cases category <;>
    simp only [xai_get_preferred_model, xai_preference_table, find_first] <;>
    repeat' split <;> simp_all [List.find?_cons]

/-- C7 counterexample: the claim asserts `get_preferred_model` returns `None`
whenever no model of the ranked preference list is allowed, but with a
non-empty allowed list that misses every preference the OpenAI provider
returns `allowed_models[0]` instead of `None` (and X.AI behaves alike). -/
theorem get_preferred_model_counterexample :
    find_first (openai_preference_table ToolModelCategory.extended_reasoning)
      ["gpt-4.1"] = none ∧
    openai_get_preferred_model ToolModelCategory.extended_reasoning ["gpt-4.1"] =
      some "gpt-4.1" ∧
    xai_get_preferred_model ToolModelCategory.extended_reasoning ["gpt-4.1"] =
      some "gpt-4.1" := by
  refine ⟨by decide, by decide, by decide⟩

/-- C7 (amended): for both providers, `get_preferred_model` returns `None`
(never raising) exactly when `allowed_models` is empty; on a non-empty allowed
list it returns the highest-ranked preference-table model contained in
`allowed_models` when one exists, and otherwise falls back to
`allowed_models[0]`; the result is always an allowed model. -/
theorem get_preferred_model_spec (category : ToolModelCategory)
    (allowed_models : List String) :
    (openai_get_preferred_model category allowed_models = none ↔ allowed_models = []) ∧
    (xai_get_preferred_model category allowed_models = none ↔ allowed_models = []) ∧
    (∀ m, find_first (openai_preference_table category) allowed_models = some m →
      openai_get_preferred_model category allowed_models = some m) ∧
    (∀ m, find_first (xai_preference_table category) allowed_models = some m →
      xai_get_preferred_model category allowed_models = some m) ∧
    (∀ a rest, allowed_models = a :: rest →
      find_first (openai_preference_table category) allowed_models = none →
      openai_get_preferred_model category allowed_models = some a) ∧
    (∀ a rest, allowed_models = a :: rest →
      find_first (xai_preference_table category) allowed_models = none →
      xai_get_preferred_model category allowed_models = some a) ∧
    (∀ m, openai_get_preferred_model category allowed_models = some m →
      m ∈ allowed_models) ∧
    (∀ m, xai_get_preferred_model category allowed_models = some m →
      m ∈ allowed_models) := by
  cases allowed_models with
  | nil =>
    refine ⟨by cases category <;> simp [openai_get_preferred_model],
            by cases category <;> simp [xai_get_preferred_model], ?_, ?_, ?_, ?_, ?_, ?_⟩
    · intro m hm
      rw [find_first_nil] at hm
      cases hm
    · intro m hm
      rw [find_first_nil] at hm
      cases hm
    · intro a rest h
      cases h
    · intro a rest h
      cases h
    · intro m hm
      cases category <;> simp [openai_get_preferred_model] at hm
    · intro m hm
      cases category <;> simp [xai_get_preferred_model] at hm
  | cons a rest =>
    have ho := openai_get_preferred_model_eq category a rest
    have hx := xai_get_preferred_model_eq category a rest
    refine ⟨by simp [ho], by simp [hx], ?_, ?_, ?_, ?_, ?_, ?_⟩
    · intro m hm
      rw [ho, hm]
      rfl
    · intro m hm
      rw [hx, hm]
      rfl
    · rintro a' rest' heq hm
      cases heq
      rw [ho, hm]
      rfl
    · rintro a' rest' heq hm
      cases heq
      rw [hx, hm]
      rfl
    · intro m hm
      rw [ho] at hm
      cases hf : find_first (openai_preference_table category) (a :: rest) with
      | none =>
        rw [hf] at hm
        simp at hm
        simp [← hm]
      | some v =>
        rw [hf] at hm
        simp at hm
        have hp := List.find?_some hf
        rw [hm] at hp
        simpa using hp
    · intro m hm
      rw [hx] at hm
      cases hf : find_first (xai_preference_table category) (a :: rest) with
      | none =>
        rw [hf] at hm
        simp at hm
        simp [← hm]
      | some v =>
        rw [hf] at hm
        simp at hm
        have hp := List.find?_some hf
        rw [hm] at hp
        simpa using hp

/-- Witness for C7 at a concrete category and allowed list containing a ranked
preference. -/
theorem get_preferred_model_spec_witness :
    find_first (openai_preference_table ToolModelCategory.fast_response)
      ["gpt-4.1", "o4-mini"] = some "o4-mini" ∧
    openai_get_preferred_model ToolModelCategory.fast_response
      ["gpt-4.1", "o4-mini"] = some "o4-mini" :=
  ⟨by decide,
    (get_preferred_model_spec ToolModelCategory.fast_response
      ["gpt-4.1", "o4-mini"]).2.2.1 "o4-mini" (by decide)⟩

/-- Helper: the occurrence scan in skip mode passes over exactly the skipped
segment. -/
theorem countOccAux_skip (pat : List Char) :
    ∀ (ys t : List Char), countOccAux pat (ys ++ t) ys.length = countOccAux pat t 0 := by
  intro ys
  induction ys with
  | nil => intro t; rfl
  | cons y ys ih => intro t; exact ih t

/-- Helper: the replacement scan in skip mode drops exactly the skipped
segment. -/
theorem replaceOccAux_skip (pat rep : List Char) :
    ∀ (ys t : List Char),
      replaceOccAux pat rep (ys ++ t) ys.length = replaceOccAux pat rep t 0 := by
  intro ys
  induction ys with
  | nil => intro t; rfl
  | cons y ys ih => intro t; exact ih t

/-- Helper: a match at the head contributes one occurrence and consumes the
pattern. -/
theorem countOcc_of_prefix (pat t : List Char) (hp : pat ≠ []) :
    countOcc pat (pat ++ t) = 1 + countOcc pat t := by
  cases pat with
  | nil => exact absurd rfl hp
  | cons p ps =>
    have hpre : (p :: ps).isPrefixOf ((p :: ps) ++ t) = true := by
      rw [List.isPrefixOf_iff_prefix]
      exact List.prefix_append _ _
    show countOccAux (p :: ps) (p :: (ps ++ t)) 0 = 1 + countOcc (p :: ps) t
    rw [countOccAux, if_pos (by simpa using hpre)]
    simp only [List.length_cons, Nat.add_sub_cancel]
    rw [countOccAux_skip]
    rfl

/-- Helper: a match at the head is replaced and the pattern consumed. -/
theorem replaceOcc_of_prefix (pat rep t : List Char) (hp : pat ≠ []) :
    replaceOcc pat rep (pat ++ t) = rep ++ replaceOcc pat rep t := by
  cases pat with
  | nil => exact absurd rfl hp
  | cons p ps =>
    have hpre : (p :: ps).isPrefixOf ((p :: ps) ++ t) = true := by
      rw [List.isPrefixOf_iff_prefix]
      exact List.prefix_append _ _
    show replaceOccAux (p :: ps) rep (p :: (ps ++ t)) 0 =
      rep ++ replaceOcc (p :: ps) rep t
    rw [replaceOccAux, if_pos (by simpa using hpre)]
    simp only [List.length_cons, Nat.add_sub_cancel]
    rw [replaceOccAux_skip]
    rfl

/-- Helper: a text without occurrences of the pattern is left unchanged by the
replacement. -/
theorem replaceOcc_of_countOcc_zero (pat rep : List Char) :
    ∀ xs, countOcc pat xs = 0 → replaceOcc pat rep xs = xs := by
  intro xs
  induction xs with
  | nil => intro _; rfl
  | cons x rest ih =>
    intro h
    by_cases hpre : pat.isPrefixOf (x :: rest)
    · exfalso
      have : countOcc pat (x :: rest) =
          1 + countOccAux pat rest (pat.length - 1) := by
        show countOccAux pat (x :: rest) 0 = _
        rw [countOccAux, if_pos (by simpa using hpre)]
      omega
    · have hc : countOcc pat rest = 0 := by
        have : countOcc pat (x :: rest) = countOcc pat rest := by
          show countOccAux pat (x :: rest) 0 = countOccAux pat rest 0
          rw [countOccAux, if_neg hpre]
        omega
      show replaceOccAux pat rep (x :: rest) 0 = x :: rest
      rw [replaceOccAux, if_neg hpre]
      rw [show replaceOccAux pat rep rest 0 = replaceOcc pat rep rest from rfl, ih hc]

/-- Helper: a text with exactly one occurrence of the pattern decomposes around
it, and the replacement substitutes exactly there, leaving the rest unchanged. -/
theorem replaceOcc_of_countOcc_one (pat rep : List Char) (hp : pat ≠ []) :
    ∀ xs, countOcc pat xs = 1 →
      ∃ pre post, xs = pre ++ pat ++ post ∧
        replaceOcc pat rep xs = pre ++ rep ++ post := by
  intro xs
  induction xs with
  | nil =>
    intro h
    exact absurd h (by simp [countOcc, countOccAux])
  | cons x rest ih =>
    intro h
    by_cases hpre : pat.isPrefixOf (x :: rest)
    · have hpfx : pat <+: x :: rest := List.isPrefixOf_iff_prefix.mp hpre
      obtain ⟨t, ht⟩ := hpfx
      have hcnt : countOcc pat t = 0 := by
        have h1 : countOcc pat (pat ++ t) = 1 + countOcc pat t :=
          countOcc_of_prefix pat t hp
        rw [ht] at h1
        omega
      refine ⟨[], t, by rw [← ht]; simp, ?_⟩
      have h2 : replaceOcc pat rep (pat ++ t) = rep ++ replaceOcc pat rep t :=
        replaceOcc_of_prefix pat rep t hp
      rw [ht] at h2
      rw [h2, replaceOcc_of_countOcc_zero pat rep t hcnt]
      simp
    · have hc : countOcc pat rest = 1 := by
        have : countOcc pat (x :: rest) = countOcc pat rest := by
          show countOccAux pat (x :: rest) 0 = countOccAux pat rest 0
          rw [countOccAux, if_neg hpre]
        omega
      obtain ⟨pre, post, hdecomp, hrepl⟩ := ih hc
      refine ⟨x :: pre, post, by simp [hdecomp], ?_⟩
      show replaceOccAux pat rep (x :: rest) 0 = x :: pre ++ rep ++ post
      rw [replaceOccAux, if_neg hpre]
      rw [show replaceOccAux pat rep rest 0 = replaceOcc pat rep rest from rfl, hrepl]
      simp

/-- C8: `get_stance_enhanced_prompt` raises the fatal configuration error if
and only if the base system prompt does not contain exactly one
`{stance_prompt}` placeholder; when the count is exactly one it returns the
base prompt with the placeholder replaced by the stance-specific block and the
surrounding text unchanged. -/
theorem get_stance_enhanced_prompt_spec (base_prompt stance : String) :
    ((∃ e, get_stance_enhanced_prompt base_prompt stance = .error e) ↔
      countOcc stancePlaceholder.data base_prompt.data ≠ 1) ∧
    (countOcc stancePlaceholder.data base_prompt.data = 1 →
      ∃ pre post,
        base_prompt.data = pre ++ stancePlaceholder.data ++ post ∧
        get_stance_enhanced_prompt base_prompt stance =
          .ok (String.mk (pre ++ (stance_prompts stance).data ++ post))) := by
  constructor
  · constructor
    · rintro ⟨e, he⟩ hcnt
      simp only [get_stance_enhanced_prompt] at he
      rw [if_neg (by simp [hcnt])] at he
      cases he
    · intro hcnt
      refine ⟨"System prompt must contain exactly one stance_prompt placeholder, found " ++
        toString (countOcc stancePlaceholder.data base_prompt.data), ?_⟩
      simp only [get_stance_enhanced_prompt]
      rw [if_pos hcnt]
  · intro hcnt
    obtain ⟨pre, post, hdecomp, hrepl⟩ :=
      replaceOcc_of_countOcc_one stancePlaceholder.data (stance_prompts stance).data
        (by decide) base_prompt.data hcnt
    refine ⟨pre, post, hdecomp, ?_⟩
    simp only [get_stance_enhanced_prompt]
    rw [if_neg (by simp [hcnt]), hrepl]

/-- Witness for C8 at a concrete base prompt holding the placeholder exactly
once. -/
theorem get_stance_enhanced_prompt_spec_witness :
    countOcc stancePlaceholder.data ("A {stance_prompt} B" : String).data = 1 ∧
    (∃ pre post,
      ("A {stance_prompt} B" : String).data =
        pre ++ stancePlaceholder.data ++ post ∧
      get_stance_enhanced_prompt "A {stance_prompt} B" "for" =
        .ok (String.mk (pre ++ (stance_prompts "for").data ++ post))) :=
  ⟨by decide, (get_stance_enhanced_prompt_spec "A {stance_prompt} B" "for").2 (by decide)⟩

/-- C2 counterexample: the claim asserts that every stance token outside the
six synonyms ({for, support, favor} and {against, oppose, critical}) yields
`(None, error)`, but the source additionally accepts the literal token
`neutral`, returning the parsed model with stance `"neutral"` instead of an
error. -/
theorem parse_model_and_stance_neutral_counterexample :
    ("neutral" : String) ∉ supportive_stances ∧
    ("neutral" : String) ∉ critical_stances ∧
    parse_model_and_stance "o3:neutral" = (some "o3", "neutral") ∧
    (parse_model_and_stance "o3:neutral").1 ≠ none := by
  refine ⟨by decide, by decide, by decide, by decide⟩

/-- C2 (amended): `parse_model_and_stance` is total and, writing
`(model, option)` for the split produced by `parse_model_option`: an empty
model part yields the cannot-be-empty error; an absent or empty stance part
yields `"neutral"`; otherwise the lower-cased stance token maps through the
synonym tables to `"for"` or `"against"`, the literal token `neutral` is also
accepted as `"neutral"`, and every remaining token yields `(none, error)` with
the offending (lower-cased) token contained in the error message. -/
theorem parse_model_and_stance_spec (entry : String) :
    ((parse_model_option entry).1 = "" →
      parse_model_and_stance entry = (none, "model name cannot be empty")) ∧
    ((parse_model_option entry).1 ≠ "" → (parse_model_option entry).2 = none →
      parse_model_and_stance entry = (some (parse_model_option entry).1, "neutral")) ∧
    ((parse_model_option entry).1 ≠ "" → (parse_model_option entry).2 = some "" →
      parse_model_and_stance entry = (some (parse_model_option entry).1, "neutral")) ∧
    (∀ s : String, (parse_model_option entry).1 ≠ "" →
      (parse_model_option entry).2 = some s → s ≠ "" →
      ((strToLower s ∈ supportive_stances →
          parse_model_and_stance entry = (some (parse_model_option entry).1, "for")) ∧
       (strToLower s ∈ critical_stances →
          parse_model_and_stance entry = (some (parse_model_option entry).1, "against")) ∧
       (strToLower s = "neutral" →
          parse_model_and_stance entry = (some (parse_model_option entry).1, "neutral")) ∧
       (strToLower s ∉ supportive_stances → strToLower s ∉ critical_stances →
        strToLower s ≠ "neutral" →
          parse_model_and_stance entry = (none, invalid_stance_message (strToLower s)) ∧
          (strToLower s).data <:+: (invalid_stance_message (strToLower s)).data))) := by
  rcases hp : parse_model_option entry with ⟨m, o⟩
  simp only [parse_model_and_stance, hp]
  refine ⟨?_, ?_, ?_, ?_⟩
  · intro h
    simp [h]
  · intro h ho
    subst ho
    simp [h]
  · intro h ho
    subst ho
    simp [h]
  · intro s h ho hs
    subst ho
    simp only [h, hs, if_neg, if_false]
    refine ⟨?_, ?_, ?_, ?_⟩
    · intro hmem
      simp [hmem]
    · intro hmem
      have hm := hmem
      simp only [critical_stances, List.mem_cons, List.not_mem_nil, or_false] at hm
      rcases hm with h1 | h1 | h1 <;> rw [h1] <;>
        rw [if_neg (by decide), if_pos (by decide)]
    · intro hneu
      rw [hneu]
      rw [if_neg (by decide), if_neg (by decide), if_pos rfl]
    · intro h1 h2 h3
      refine ⟨by simp [h1, h2, h3], ?_⟩
      refine ⟨("invalid stance " : String).data, (" (must be one of: against, critical, favor, for, oppose, support, or omitted for neutral)" : String).data, ?_⟩
      simp [invalid_stance_message, String.data_append]

/-- Witness for C2 at the concrete entry `"o3:Against"` (synonym, mixed case). -/
theorem parse_model_and_stance_spec_witness :
    (parse_model_option "o3:Against").1 ≠ "" ∧
    (parse_model_option "o3:Against").2 = some "Against" ∧
    strToLower "Against" ∈ critical_stances ∧
    parse_model_and_stance "o3:Against" = (some "o3", "against") := by
  have h :=
    ((parse_model_and_stance_spec "o3:Against").2.2.2 "Against" (by decide) (by decide)
      (by decide)).2.1 (by decide)
  exact ⟨by decide, by decide, by decide, by simpa using h⟩

/-- Helper: counting in a history extended on the right by one element. -/
theorem count_append_single (l : List (String × String)) (key p : String × String) :
    (l ++ [key]).count p = l.count p + (if p = key then 1 else 0) := by
  rw [List.count_append]
  by_cases h : p = key <;> simp [h, List.count_singleton]

/-- Helper: the implementation worker with a running count map equal to the
capped history count produces exactly the keep-first-two filtration of the
successfully parsed entries. -/
theorem validate_go_valid (entries : List String) :
    ∀ (prev : List (String × String)) (counts : String × String → Nat),
    (∀ p, counts p = min (prev.count p) 2) →
    (validate_model_combinations_go entries counts).1 =
      keep_first_two_aux prev (parsed_ok_entries entries) := by
  induction entries with
  | nil => intro prev counts hc; rfl
  | cons entry rest ih =>
    intro prev counts hc
    rcases hpar : parse_model_and_stance entry with ⟨m?, reason⟩
    cases m? with
    | none =>
      simp only [validate_model_combinations_go, hpar, parsed_ok_entries,
        List.filterMap_cons]
      exact ih prev counts hc
    | some m =>
      simp only [validate_model_combinations_go, hpar, parsed_ok_entries,
        List.filterMap_cons, keep_first_two_aux]
      by_cases hcnt : counts (m, reason) ≥ DEFAULT_CONSENSUS_MAX_INSTANCES_PER_COMBINATION
      · have hprev : ¬ prev.count (m, reason) < 2 := by
          have := hc (m, reason)
          simp [DEFAULT_CONSENSUS_MAX_INSTANCES_PER_COMBINATION] at hcnt
          omega
        rw [if_pos hcnt, if_neg hprev]
        refine ih (prev ++ [(m, reason)]) counts ?_
        intro p
        rw [count_append_single]
        have h1 := hc p
        have h2 := hc (m, reason)
        by_cases hp : p = (m, reason)
        · subst hp
          simp [DEFAULT_CONSENSUS_MAX_INSTANCES_PER_COMBINATION] at hcnt
          simp
          omega
        · simp [hp]
          omega
      · have hprev : prev.count (m, reason) < 2 := by
          have := hc (m, reason)
          simp [DEFAULT_CONSENSUS_MAX_INSTANCES_PER_COMBINATION] at hcnt
          omega
        rw [if_neg hcnt, if_pos hprev]
        simp only [List.cons.injEq, true_and]
        refine ih (prev ++ [(m, reason)])
          (fun k => if k = (m, reason) then counts k + 1 else counts k) ?_
        intro p
        rw [count_append_single]
        have h1 := hc p
        have h2 := hc (m, reason)
        by_cases hp : p = (m, reason)
        · subst hp
          simp
          omega
        · simp [hp]
          omega

/-- Helper: the keep-first-two filtration is a sublist of its input (order
preservation). -/
theorem keep_first_two_aux_sublist (l : List (String × String)) :
    ∀ prev, List.Sublist (keep_first_two_aux prev l) l := by
  induction l with
  | nil => intro prev; exact List.Sublist.refl []
  | cons p rest ih =>
    intro prev
    simp only [keep_first_two_aux]
    by_cases h : prev.count p < 2
    · rw [if_pos h]
      exact List.Sublist.cons₂ p (ih (prev ++ [p]))
    · rw [if_neg h]
      exact List.Sublist.cons p (ih (prev ++ [p]))

/-- Helper: per-pair count of the keep-first-two filtration, capped at 2
relative to the history. -/
theorem keep_first_two_aux_count (l : List (String × String)) :
    ∀ (prev : List (String × String)) (p : String × String),
    (keep_first_two_aux prev l).count p =
      min (prev.count p + l.count p) 2 - min (prev.count p) 2 := by
  induction l with
  | nil =>
    intro prev p
    simp [keep_first_two_aux]
  | cons q rest ih =>
    intro prev p
    simp only [keep_first_two_aux]
    by_cases hq : prev.count q < 2
    · rw [if_pos hq]
      have hr := ih (prev ++ [q]) p
      rw [count_append_single] at hr
      by_cases hp : p = q
      · subst hp
        rw [List.count_cons_self, hr]
        simp
        omega
      · rw [List.count_cons_of_ne ?hne, hr, List.count_cons_of_ne ?hne]
        · simp [hp]
        · exact fun hc => hp hc

    · rw [if_neg hq]
      have hr := ih (prev ++ [q]) p
      rw [count_append_single] at hr
      by_cases hp : p = q
      · subst hp
        rw [hr, List.count_cons_self]
        simp
        omega
      · rw [hr, List.count_cons_of_ne ?hne2]
        · simp [hp]
        · exact fun hc => hp hc

/-- Helper: the literal `"max 2 instances"` occurs inside every over-limit
skip string built by the implementation. -/
theorem max_note_contained (m st : String) :
    ("max 2 instances" : String).data <:+:
      (m ++ ":" ++ st ++ " (max " ++
        toString DEFAULT_CONSENSUS_MAX_INSTANCES_PER_COMBINATION ++
        " instances)").data := by
  refine ⟨(m ++ ":" ++ st ++ " (").data, (")" : String).data, ?_⟩
  have hconst : (" (" : String).data ++
      (("max 2 instances" : String).data ++ (")" : String).data) =
      (" (max " : String).data ++
        ((toString DEFAULT_CONSENSUS_MAX_INSTANCES_PER_COMBINATION : String).data ++
          (" instances)" : String).data) := by decide
  simp only [String.data_append, List.append_assoc]
  rw [hconst]

/-- Helper: every skipped entry is either a parse failure tagged with its parse
reason or an over-limit skip containing `"max 2 instances"`. -/
theorem validate_go_skipped (entries : List String) :
    ∀ (counts : String × String → Nat),
    ∀ s ∈ (validate_model_combinations_go entries counts).2,
      (∃ e reason, e ∈ entries ∧ parse_model_and_stance e = (none, reason) ∧
        s = e ++ " (" ++ reason ++ ")") ∨
      ("max 2 instances" : String).data <:+: s.data := by
  induction entries with
  | nil => intro counts s hs; cases hs
  | cons entry rest ih =>
    intro counts s hs
    rcases hpar : parse_model_and_stance entry with ⟨m?, reason⟩
    cases m? with
    | none =>
      simp only [validate_model_combinations_go, hpar, List.mem_cons] at hs
      rcases hs with hs | hs
      · exact Or.inl ⟨entry, reason, List.mem_cons_self entry rest, hpar, hs⟩
      · rcases ih counts s hs with ⟨e, r, he, hp, hse⟩ | hinf
        · exact Or.inl ⟨e, r, List.mem_cons_of_mem entry he, hp, hse⟩
        · exact Or.inr hinf
    | some m =>
      simp only [validate_model_combinations_go, hpar] at hs
      by_cases hcnt : counts (m, reason) ≥ DEFAULT_CONSENSUS_MAX_INSTANCES_PER_COMBINATION
      · rw [if_pos hcnt] at hs
        simp only [List.mem_cons] at hs
        rcases hs with hs | hs
        · subst hs
          exact Or.inr (max_note_contained m reason)
        · rcases ih counts s hs with ⟨e, r, he, hp, hse⟩ | hinf
          · exact Or.inl ⟨e, r, List.mem_cons_of_mem entry he, hp, hse⟩
          · exact Or.inr hinf
      · rw [if_neg hcnt] at hs
        rcases ih _ s hs with ⟨e, r, he, hp, hse⟩ | hinf
        · exact Or.inl ⟨e, r, List.mem_cons_of_mem entry he, hp, hse⟩
        · exact Or.inr hinf

/-- Helper: every entry lands in exactly one of the two result lists. -/
theorem validate_go_length (entries : List String) :
    ∀ counts,
    (validate_model_combinations_go entries counts).1.length +
      (validate_model_combinations_go entries counts).2.length = entries.length := by
  induction entries with
  | nil => intro counts; rfl
  | cons entry rest ih =>
    intro counts
    rcases hpar : parse_model_and_stance entry with ⟨m?, reason⟩
    cases m? with
    | none =>
      simp only [validate_model_combinations_go, hpar, List.length_cons]
      have := ih counts
      omega
    | some m =>
      simp only [validate_model_combinations_go, hpar]
      by_cases hcnt : counts (m, reason) ≥ DEFAULT_CONSENSUS_MAX_INSTANCES_PER_COMBINATION
      · rw [if_pos hcnt]
        simp only [List.length_cons]
        have := ih counts
        omega
      · rw [if_neg hcnt]
        simp only [List.length_cons]
        have := ih (fun k => if k = (m, reason) then counts k + 1 else counts k)
        omega

/-- C3: for every list of model entries, exactly the first 2 occurrences of
each identical `(model, stance)` pair are placed in the valid list (input order
preserved: the valid list is the keep-first-two filtration of the successfully
parsed entries, a sublist of them, with per-pair count `min(n, 2)`); entries
that fail to parse go to the skipped list tagged with their parse reason, and
every occurrence beyond the 2nd goes to the skipped list with a reason
containing `"max 2 instances"`; every entry lands in exactly one list. -/
theorem validate_model_combinations_spec (entries : List String) :
    (validate_model_combinations entries).1 =
      keep_first_two (parsed_ok_entries entries) ∧
    List.Sublist (validate_model_combinations entries).1 (parsed_ok_entries entries) ∧
    (∀ p : String × String,
      (validate_model_combinations entries).1.count p =
        min ((parsed_ok_entries entries).count p) 2) ∧
    (∀ s ∈ (validate_model_combinations entries).2,
      (∃ e reason, e ∈ entries ∧ parse_model_and_stance e = (none, reason) ∧
        s = e ++ " (" ++ reason ++ ")") ∨
      ("max 2 instances" : String).data <:+: s.data) ∧
    (validate_model_combinations entries).1.length +
      (validate_model_combinations entries).2.length = entries.length := by
  have hvalid : (validate_model_combinations entries).1 =
      keep_first_two (parsed_ok_entries entries) :=
    validate_go_valid entries [] (fun _ => 0) (fun p => by simp)
  refine ⟨hvalid, ?_, ?_, validate_go_skipped entries _, validate_go_length entries _⟩
  · rw [hvalid]
    exact keep_first_two_aux_sublist _ []
  · intro p
    rw [hvalid, keep_first_two, keep_first_two_aux_count]
    simp

/-- Witness for C3 at a concrete entry list with three identical pairs and one
parse failure. -/
theorem validate_model_combinations_spec_witness :
    ("o3:for (max 2 instances)" ∈
      (validate_model_combinations ["o3:for", "o3:for", "o3:for", "bad:maybe"]).2) ∧
    ((∃ e reason, e ∈ ["o3:for", "o3:for", "o3:for", "bad:maybe"] ∧
        parse_model_and_stance e = (none, reason) ∧
        "o3:for (max 2 instances)" = e ++ " (" ++ reason ++ ")") ∨
      ("max 2 instances" : String).data <:+: ("o3:for (max 2 instances)" : String).data) ∧
    (validate_model_combinations ["o3:for", "o3:for", "o3:for", "bad:maybe"]).1 =
      [("o3", "for"), ("o3", "for")] :=
  ⟨by decide,
    (validate_model_combinations_spec ["o3:for", "o3:for", "o3:for", "bad:maybe"]).2.2.2.1
      "o3:for (max 2 instances)" (by decide),
    by decide⟩

/-- Helper for C10 and C8: the stance block table returns the neutral block for
every stance outside the three recognized keys. -/
theorem stance_prompts_default (stance : String)
    (h : stance ∉ (["for", "against", "neutral"] : List String)) :
    stance_prompts stance = neutral_stance_prompt := by
  simp only [List.mem_cons, List.mem_singleton, not_or] at h
  obtain ⟨h1, h2, h3⟩ := h
  simp [stance_prompts, h1, h2, h3]

/-- C10: for every stance string outside for/against/neutral,
`get_stance_enhanced_prompt` does not raise on account of the stance: it
behaves exactly as with the neutral stance (substituting the neutral block), so
an unrecognized stance value reaching this function produces neutral framing
rather than an error. -/
theorem get_stance_enhanced_prompt_unknown_stance (base_prompt stance : String)
    (h : stance ∉ (["for", "against", "neutral"] : List String)) :
    get_stance_enhanced_prompt base_prompt stance =
      get_stance_enhanced_prompt base_prompt "neutral" ∧
    stance_prompts stance = neutral_stance_prompt := by
  have hs := stance_prompts_default stance h
  have hn : stance_prompts "neutral" = neutral_stance_prompt := by decide
  constructor
  · unfold get_stance_enhanced_prompt
    rw [hs, hn]
  · exact hs

/-- Witness for C10 at the concrete unrecognized stance `"maybe"`. -/
theorem get_stance_enhanced_prompt_unknown_stance_witness :
    ("maybe" : String) ∉ (["for", "against", "neutral"] : List String) ∧
    get_stance_enhanced_prompt "A {stance_prompt} B" "maybe" =
      get_stance_enhanced_prompt "A {stance_prompt} B" "neutral" :=
  ⟨by decide,
    (get_stance_enhanced_prompt_unknown_stance "A {stance_prompt} B" "maybe" (by decide)).1⟩

end ZenMCP
